import Mathlib

/-!
Verification development for the Spine assets optimizer core
(`src/utils/optimizer.ts` and `src/utils/atlasUnpacker.ts`).

Shallow embedding conventions:
* JavaScript `number` is modelled by `ℚ` (the code performs only ring
  operations, division by 100, `Math.ceil`, `Math.min`, `Math.max`, and
  comparisons, all exact on rationals).
* `Map<string, V>` iterated with `forEach` is modelled by an association
  list `List (String × V)` in insertion order; `Map.get` after repeated
  `Map.set` returns the value of the last `set` for the key.
* `File`/`Blob` contents are opaque; they are modelled by `String` tokens.
* Browser decoding / canvas drawing is modelled by oracle functions
  (`decode`, `extract`, `resize`) passed as parameters: the control flow
  around them is what is verified.
-/

namespace SpineAssets

/-- `GlobalAssetStat` from `types.ts`, as used by `optimizer.ts`:
aggregated requirement for one logical sprite. -/
structure GlobalAssetStat where
  lookupKey : String
  maxRenderWidth : ℚ
  maxRenderHeight : ℚ
  maxScaleX : ℚ
  maxScaleY : ℚ
  isOverridden : Bool
  overridePercentage : ℚ
  deriving Repr, DecidableEq

/-- One entry of the `loadedImages` map passed to `calculateOptimizationTargets`:
`{ width, height, sourceWidth?, sourceHeight?, file, originalPath }`. -/
structure LoadedImage where
  width : ℚ
  height : ℚ
  sourceWidth : Option ℚ
  sourceHeight : Option ℚ
  file : String
  originalPath : String
  deriving Repr, DecidableEq

/-- `OptimizationTask` from `types.ts`, as constructed by `optimizer.ts`. -/
structure OptimizationTask where
  fileName : String
  relativePath : String
  originalWidth : ℚ
  originalHeight : ℚ
  targetWidth : ℚ
  targetHeight : ℚ
  blob : String
  maxScaleUsed : ℚ
  isResize : Bool
  overridePercentage : ℚ
  deriving Repr, DecidableEq

/-- The lookup `statsMap.get key` where `statsMap` is built by
`stats.forEach(s => statsMap.set(s.lookupKey, s))`: the value of the
last stat in the list whose `lookupKey` matches (later `set` overwrites). -/
def statsLookup (stats : List GlobalAssetStat) (key : String) : Option GlobalAssetStat :=
  stats.foldl (fun acc s => if s.lookupKey = key then some s else acc) none

/-- `const physicalW = original.sourceWidth ?? original.width` (optimizer.ts line 33). -/
def physicalW (original : LoadedImage) : ℚ :=
  original.sourceWidth.getD original.width

/-- `const physicalH = original.sourceHeight ?? original.height` (optimizer.ts line 34). -/
def physicalH (original : LoadedImage) : ℚ :=
  original.sourceHeight.getD original.height

/-- `calculatedW` (optimizer.ts lines 39-50): the override value as given, or
`Math.ceil(stat.maxRenderWidth * (1 + bufferPercentage / 100))`. -/
def calculatedW (stat : GlobalAssetStat) (bufferPercentage : ℚ) : ℚ :=
  if stat.isOverridden then stat.maxRenderWidth
  else ((⌈stat.maxRenderWidth * (1 + bufferPercentage / 100)⌉ : ℤ) : ℚ)

/-- `calculatedH` (optimizer.ts lines 39-50). -/
def calculatedH (stat : GlobalAssetStat) (bufferPercentage : ℚ) : ℚ :=
  if stat.isOverridden then stat.maxRenderHeight
  else ((⌈stat.maxRenderHeight * (1 + bufferPercentage / 100)⌉ : ℤ) : ℚ)

/-- `Math.min` on two (non-NaN) numbers. -/
def jsMin (a b : ℚ) : ℚ := if a ≤ b then a else b

/-- `Math.max` on two (non-NaN) numbers. -/
def jsMax (a b : ℚ) : ℚ := if b ≤ a then a else b

/-- `targetW = Math.max(1, Math.min(calculatedW, physicalW))` (optimizer.ts lines 54-59). -/
def targetW (original : LoadedImage) (stat : GlobalAssetStat) (bufferPercentage : ℚ) : ℚ :=
  jsMax 1 (jsMin (calculatedW stat bufferPercentage) (physicalW original))

/-- `targetH = Math.max(1, Math.min(calculatedH, physicalH))` (optimizer.ts lines 55-59). -/
def targetH (original : LoadedImage) (stat : GlobalAssetStat) (bufferPercentage : ℚ) : ℚ :=
  jsMax 1 (jsMin (calculatedH stat bufferPercentage) (physicalH original))

/-- JS `sourcePath.lastIndexOf(c)` restricted to a single-character needle,
on the character list of the string: `some i` for the last index holding `c`. -/
def lastIndexOfCharAux (c : Char) : List Char → Option ℕ
  | [] => none
  | a :: as =>
    match lastIndexOfCharAux c as with
    | some i => some (i + 1)
    | none => if a = c then some 0 else none

/-- JS `sourcePath.lastIndexOf(c)`: last index of `c`, or `-1` when absent. -/
def lastIndexOfChar (s : List Char) (c : Char) : ℤ :=
  match lastIndexOfCharAux c s with
  | some i => (i : ℤ)
  | none => -1

/-- Output-filename derivation (optimizer.ts lines 67-81): strip the extension
only when the last dot lies strictly after the last slash or backslash, then
append `".png"`. -/
def outputFileNameChars (sourcePath : List Char) : List Char :=
  let lastSlashIndex := max (lastIndexOfChar sourcePath '/') (lastIndexOfChar sourcePath '\\')
  let lastDotIndex := lastIndexOfChar sourcePath '.'
  let basePath :=
    if lastDotIndex > lastSlashIndex then sourcePath.take lastDotIndex.toNat else sourcePath
  basePath ++ ".png".data

/-- `outputFileName` on strings. -/
def outputFileName (sourcePath : String) : String :=
  String.mk (outputFileNameChars sourcePath.data)

/-- The task pushed for one retained loaded image (optimizer.ts lines 83-95). -/
def mkTask (original : LoadedImage) (stat : GlobalAssetStat) (bufferPercentage : ℚ) :
    OptimizationTask :=
  let physW := physicalW original
  let physH := physicalH original
  let tW := targetW original stat bufferPercentage
  let tH := targetH original stat bufferPercentage
  { fileName := outputFileName original.originalPath
    relativePath := original.originalPath
    originalWidth := physW
    originalHeight := physH
    targetWidth := tW
    targetHeight := tH
    blob := original.file
    maxScaleUsed := jsMax stat.maxScaleX stat.maxScaleY
    isResize := decide (tW ≠ physW ∨ tH ≠ physH)
    overridePercentage := stat.overridePercentage }

/-- The "may precede" relation induced by the sort comparator
`(a, b) => (a.isResize === b.isResize ? 0 : a.isResize ? -1 : 1)`
(optimizer.ts line 99): `a` may be placed before `b` exactly when the
comparator is `≤ 0`. -/
def taskBefore (a b : OptimizationTask) : Prop :=
  a.isResize = true ∨ b.isResize = false

instance taskBeforeDecidable : DecidableRel taskBefore := fun a b =>
  inferInstanceAs (Decidable (a.isResize = true ∨ b.isResize = false))

/-- `calculateOptimizationTargets` (optimizer.ts lines 10-102).  The `forEach`
over `loadedImages` with the early `return` on a missing stat is a `filterMap`;
`tasks.sort(cmp)` with a stable sort (ECMAScript `Array.prototype.sort` is
stable) is modelled by stable insertion sort over `taskBefore`. -/
def calculateOptimizationTargets (stats : List GlobalAssetStat)
    (loadedImages : List (String × LoadedImage)) (bufferPercentage : ℚ) :
    List OptimizationTask :=
  let tasks := loadedImages.filterMap fun kv =>
    (statsLookup stats kv.1).map fun stat => mkTask kv.2 stat bufferPercentage
  List.insertionSort taskBefore tasks

/-- `AtlasRegion` from `types.ts`, as used by `atlasUnpacker.ts`. -/
structure AtlasRegion where
  name : String
  pageName : String
  x : ℚ
  y : ℚ
  width : ℚ
  height : ℚ
  offsetX : ℚ
  offsetY : ℚ
  originalWidth : ℚ
  originalHeight : ℚ
  rotated : Bool
  deriving Repr, DecidableEq

/-- `const dx = region.offsetX` (atlasUnpacker.ts line 102). -/
def destX (r : AtlasRegion) : ℚ := r.offsetX

/-- `packedHeightInOriginalSpace = region.rotated ? region.width : region.height`
(atlasUnpacker.ts line 108). -/
def packedHeightInOriginalSpace (r : AtlasRegion) : ℚ :=
  if r.rotated then r.width else r.height

/-- `dy = region.originalHeight - (region.offsetY + packedHeightInOriginalSpace)`
(atlasUnpacker.ts line 110). -/
def destY (r : AtlasRegion) : ℚ :=
  r.originalHeight - (r.offsetY + packedHeightInOriginalSpace r)

/-- The affine map applied to local drawing coordinates in the rotated branch
(atlasUnpacker.ts lines 120-121): `translate(dx, dy + region.width)` composed
with `rotate(-90°)`.  An exact -90° rotation sends a local point `(u, v)` to
`(v, -u)`, so the composite sends it to `(dx + v, (dy + width) - u)`. -/
def rotatedPoint (r : AtlasRegion) (p : ℚ × ℚ) : ℚ × ℚ :=
  (destX r + p.2, (destY r + r.width) - p.1)

/-- The set of canvas points covered by the `drawImage` call of `extractRegion`:
the non-rotated branch draws the `width × height` source rectangle at
`(dx, dy)` (line 137-141); the rotated branch draws it at local origin with
un-swapped `(width, height)` under the transform above (lines 130-134). -/
def drawnRegion (r : AtlasRegion) : Set (ℚ × ℚ) :=
  if r.rotated then
    Set.image (rotatedPoint r) (Set.Icc 0 r.width ×ˢ Set.Icc 0 r.height)
  else
    Set.Icc (destX r) (destX r + r.width) ×ˢ Set.Icc (destY r) (destY r + r.height)

/-- Output canvas dimensions of `extractRegion` (atlasUnpacker.ts lines 93-94):
`originalWidth × originalHeight`. -/
def extractCanvas (r : AtlasRegion) : ℚ × ℚ :=
  (r.originalWidth, r.originalHeight)

/-- `UnpackedAsset` from `atlasUnpacker.ts` (the object URL is not modelled;
blobs are opaque tokens). -/
structure UnpackedAsset where
  name : String
  blob : String
  width : ℚ
  height : ℚ
  sourceWidth : Option ℚ
  sourceHeight : Option ℚ
  deriving Repr, DecidableEq

/-- One step of building `pageRegions` (atlasUnpacker.ts lines 25-32): append
the region to its page's bucket, creating the bucket at the end on first
sight of the page name (JS `Map` preserves insertion order). -/
def addToGroup (acc : List (String × List AtlasRegion)) (r : AtlasRegion) :
    List (String × List AtlasRegion) :=
  match acc with
  | [] => [(r.pageName, [r])]
  | (p, rs) :: rest =>
    if p = r.pageName then (p, rs ++ [r]) :: rest else (p, rs) :: addToGroup rest r

/-- `pageRegions` grouping of the region list (atlasUnpacker.ts lines 22-32). -/
def groupByPage (regions : List AtlasRegion) : List (String × List AtlasRegion) :=
  regions.foldl addToGroup []

/-- `texturePages.get(pageName)` where `texturePages : Map<string, File>`
(unique keys): first association with the name. -/
def pagesLookup (pages : List (String × String)) (pageName : String) : Option String :=
  (pages.find? fun kv => kv.1 == pageName).map fun kv => kv.2

/-- The asset stored by `unpacked.set(region.name, ...)` on a successful
extraction (atlasUnpacker.ts lines 71-79). -/
def assetOfRegion (r : AtlasRegion) (blob : String) : UnpackedAsset :=
  { name := r.name
    blob := blob
    width := r.originalWidth
    height := r.originalHeight
    sourceWidth := some r.originalWidth
    sourceHeight := some r.originalHeight }

/-- The inner region loop of `unpackTextures` for one decoded page
(atlasUnpacker.ts lines 67-83): per region, attempt extraction, increment
`processedCount`, and report progress.  Returns the collected entries, the
final `processedCount`, and the progress-call trace of this page. -/
def processPageRegions (extractOracle : String → AtlasRegion → Option String) (img : String)
    (total : ℕ) : List AtlasRegion → ℕ →
    List (String × UnpackedAsset) × ℕ × List (ℕ × ℕ)
  | [], processed => ([], processed, [])
  | r :: rs, processed =>
    let entry := (extractOracle img r).map fun blob => (r.name, assetOfRegion r blob)
    let processed1 := processed + 1
    let rec' := processPageRegions extractOracle img total rs processed1
    (entry.toList ++ rec'.1, rec'.2.1, (processed1, total) :: rec'.2.2)

/-- The page loop of `unpackTextures` (atlasUnpacker.ts lines 38-86): a page
whose file is missing (line 40) or fails to decode (line 58) advances
`processedCount` by the whole page's region count and reports progress once;
otherwise every region of the page is processed in turn. -/
def processPages (texturePages : List (String × String)) (decode : String → Option String)
    (extractOracle : String → AtlasRegion → Option String) (total : ℕ) :
    List (String × List AtlasRegion) → ℕ →
    List (String × UnpackedAsset) × List (ℕ × ℕ)
  | [], _ => ([], [])
  | (pageName, regions) :: rest, processed =>
    match (pagesLookup texturePages pageName).bind decode with
    | none =>
      let processed1 := processed + regions.length
      let rec' := processPages texturePages decode extractOracle total rest processed1
      (rec'.1, (processed1, total) :: rec'.2)
    | some img =>
      let page := processPageRegions extractOracle img total regions processed
      let rec' := processPages texturePages decode extractOracle total rest page.2.1
      (page.1 ++ rec'.1, page.2.2 ++ rec'.2)

/-- `unpackTextures` (atlasUnpacker.ts lines 14-89), with browser decoding and
canvas extraction abstracted into oracles.  Returns the `unpacked` entries in
insertion order together with the trace of `onProgress(current, total)` calls
made when a callback is supplied (the leading `(0, total)` call is line 35). -/
def unpackTextures (texturePages : List (String × String)) (decode : String → Option String)
    (extractOracle : String → AtlasRegion → Option String) (atlasMetadata : List AtlasRegion) :
    List (String × UnpackedAsset) × List (ℕ × ℕ) :=
  let total := atlasMetadata.length
  let result := processPages texturePages decode extractOracle total (groupByPage atlasMetadata) 0
  (result.1, (0, total) :: result.2)

/-- One archive entry: a `rootFolder.file(name, blob)` call made by
`generateOptimizedZip`; all entries live under the `"images_optimized"`
root folder. -/
structure ZipEntry where
  name : String
  blob : String
  deriving Repr, DecidableEq

/-- The task loop of `generateOptimizedZip` (optimizer.ts lines 148-170):
per task, resize when `isResize` (falling back to the original blob when the
resizer fails), record the entry, increment `completed`, report progress. -/
def zipLoop (resize : String → ℚ → ℚ → Option String) (total : ℕ) :
    List OptimizationTask → ℕ → List ZipEntry × List (ℕ × ℕ)
  | [], _ => ([], [])
  | task :: rest, completed =>
    let blob :=
      if task.isResize then
        match resize task.blob task.targetWidth task.targetHeight with
        | some resized => resized
        | none => task.blob
      else task.blob
    let completed1 := completed + 1
    let rec' := zipLoop resize total rest completed1
    ({ name := task.fileName, blob := blob } :: rec'.1, (completed1, total) :: rec'.2)

/-- `generateOptimizedZip` (optimizer.ts lines 139-173) with `resizeImage`
abstracted into an oracle: the archive's entry list under the root folder and
the `onProgress` trace. -/
def generateOptimizedZip (resize : String → ℚ → ℚ → Option String)
    (tasks : List OptimizationTask) : List ZipEntry × List (ℕ × ℕ) :=
  zipLoop resize tasks.length tasks 0

/-- The task list built by the `forEach` loop before sorting
(optimizer.ts lines 20-96). -/
def preSortTasks (stats : List GlobalAssetStat) (loadedImages : List (String × LoadedImage))
    (bufferPercentage : ℚ) : List OptimizationTask :=
  loadedImages.filterMap fun kv =>
    (statsLookup stats kv.1).map fun stat => mkTask kv.2 stat bufferPercentage

/-- A 1024×512 loaded image used in the worked examples. -/
def exImgHero : LoadedImage :=
  { width := 1024, height := 512, sourceWidth := none, sourceHeight := none,
    file := "heroBytes", originalPath := "characters/hero.png" }

/-- Non-overridden stat with `maxRenderWidth = 512`, `maxRenderHeight = 256`. -/
def exStatHero : GlobalAssetStat :=
  { lookupKey := "hero", maxRenderWidth := 512, maxRenderHeight := 256,
    maxScaleX := 1, maxScaleY := 1, isOverridden := false, overridePercentage := 100 }

/-- A 100×100 loaded image with a never-rendered (maxRender = 0) stat below. -/
def cImgZeroRender : LoadedImage :=
  { width := 100, height := 100, sourceWidth := none, sourceHeight := none,
    file := "zBytes", originalPath := "zero.png" }

/-- Non-overridden stat whose `maxRenderWidth/Height` are `0`. -/
def cStatZeroRender : GlobalAssetStat :=
  { lookupKey := "zero", maxRenderWidth := 0, maxRenderHeight := 0,
    maxScaleX := 0, maxScaleY := 0, isOverridden := false, overridePercentage := 100 }

/-- A 150×150 loaded image used in the override example. -/
def exImg150 : LoadedImage :=
  { width := 150, height := 150, sourceWidth := none, sourceHeight := none,
    file := "oBytes", originalPath := "ov.png" }

/-- Overridden stat asking for 200×200. -/
def exStatOv : GlobalAssetStat :=
  { lookupKey := "ov", maxRenderWidth := 200, maxRenderHeight := 200,
    maxScaleX := 2, maxScaleY := 2, isOverridden := true, overridePercentage := 200 }

/-- A degenerate loaded image whose physical dimensions are 0×0 (e.g. a sprite
whose atlas metadata records an original size of zero). -/
def cImgZeroPhys : LoadedImage :=
  { width := 0, height := 0, sourceWidth := none, sourceHeight := none,
    file := "degBytes", originalPath := "deg.png" }

/-- Overridden stat asking for 200×200, paired with `cImgZeroPhys`. -/
def cStatOvDeg : GlobalAssetStat :=
  { lookupKey := "deg", maxRenderWidth := 200, maxRenderHeight := 200,
    maxScaleX := 2, maxScaleY := 2, isOverridden := true, overridePercentage := 200 }

/-- A second degenerate 0×0 loaded image, paired with a plain stat. -/
def cImgZeroPhys2 : LoadedImage :=
  { width := 0, height := 0, sourceWidth := none, sourceHeight := none,
    file := "deg2Bytes", originalPath := "deg2.png" }

/-- Non-overridden stat asking for 50×50, paired with `cImgZeroPhys2`. -/
def cStatDeg2 : GlobalAssetStat :=
  { lookupKey := "deg2", maxRenderWidth := 50, maxRenderHeight := 50,
    maxScaleX := 1, maxScaleY := 1, isOverridden := false, overridePercentage := 100 }

/-- Stats for the ordering example: four 100×100 images where `r2` and `r4`
need a resize (maxRender 50 and 60) while `r1` and `r3` do not (maxRender 100). -/
def exStatsC6 : List GlobalAssetStat :=
  [{ lookupKey := "r1", maxRenderWidth := 100, maxRenderHeight := 100,
     maxScaleX := 1, maxScaleY := 1, isOverridden := false, overridePercentage := 100 },
   { lookupKey := "r2", maxRenderWidth := 50, maxRenderHeight := 50,
     maxScaleX := 1, maxScaleY := 1, isOverridden := false, overridePercentage := 100 },
   { lookupKey := "r3", maxRenderWidth := 100, maxRenderHeight := 100,
     maxScaleX := 1, maxScaleY := 1, isOverridden := false, overridePercentage := 100 },
   { lookupKey := "r4", maxRenderWidth := 60, maxRenderHeight := 60,
     maxScaleX := 1, maxScaleY := 1, isOverridden := false, overridePercentage := 100 }]

/-- Loaded images for the ordering example, in iteration order r1, r2, r3, r4. -/
def exLoadedC6 : List (String × LoadedImage) :=
  [("r1", { width := 100, height := 100, sourceWidth := none, sourceHeight := none,
            file := "F1", originalPath := "r1" }),
   ("r2", { width := 100, height := 100, sourceWidth := none, sourceHeight := none,
            file := "F2", originalPath := "r2" }),
   ("r3", { width := 100, height := 100, sourceWidth := none, sourceHeight := none,
            file := "F3", originalPath := "r3" }),
   ("r4", { width := 100, height := 100, sourceWidth := none, sourceHeight := none,
            file := "F4", originalPath := "r4" })]

/-- The rotated region of the spec's worked example:
`{x:0, y:0, width:50, height:30, rotated:true, offsetX:5, offsetY:10,
originalWidth:80, originalHeight:60}`. -/
def exRegionC4 : AtlasRegion :=
  { name := "exRot", pageName := "page.png", x := 0, y := 0, width := 50, height := 30,
    offsetX := 5, offsetY := 10, originalWidth := 80, originalHeight := 60, rotated := true }

/-- Two regions referencing a texture page that is not supplied. -/
def cRegMissA : AtlasRegion :=
  { name := "a", pageName := "missing.png", x := 0, y := 0, width := 10, height := 10,
    offsetX := 0, offsetY := 0, originalWidth := 10, originalHeight := 10, rotated := false }

/-- Second region on the missing page. -/
def cRegMissB : AtlasRegion :=
  { name := "b", pageName := "missing.png", x := 0, y := 0, width := 10, height := 10,
    offsetX := 0, offsetY := 0, originalWidth := 10, originalHeight := 10, rotated := false }

/-- Decode oracle that always fails. -/
def decodeNone : String → Option String := fun _ => none

/-- Extraction oracle that always fails. -/
def extractNone : String → AtlasRegion → Option String := fun _ _ => none

/-- Resize oracle that always fails. -/
def resizeNone : String → ℚ → ℚ → Option String := fun _ _ _ => none

/-- The archive entry `generateOptimizedZip` records for one task: the resized
blob when `isResize` and the resizer succeeds, the original blob otherwise. -/
def zipEntryOf (resize : String → ℚ → ℚ → Option String) (task : OptimizationTask) : ZipEntry :=
  { name := task.fileName
    blob :=
      if task.isResize then (resize task.blob task.targetWidth task.targetHeight).getD task.blob
      else task.blob }

/-- A concrete task that needs no resize. -/
def exTaskPlain : OptimizationTask :=
  { fileName := "plain.png", relativePath := "plain.png", originalWidth := 64,
    originalHeight := 64, targetWidth := 64, targetHeight := 64, blob := "plainBytes",
    maxScaleUsed := 1, isResize := false, overridePercentage := 100 }

/-- A concrete task that needs a resize. -/
def exTaskResize : OptimizationTask :=
  { fileName := "shrink.png", relativePath := "shrink.png", originalWidth := 64,
    originalHeight := 64, targetWidth := 32, targetHeight := 32, blob := "shrinkBytes",
    maxScaleUsed := 1, isResize := true, overridePercentage := 100 }

/-- Total number of regions contained in a page grouping. -/
def groupsSize (gs : List (String × List AtlasRegion)) : ℕ :=
  (gs.map fun g => g.2.length).sum

/-- Decode oracle that always succeeds. -/
def decodeOk : String → Option String := fun s => some s

/-- One texture page supplied for `exRegionC4`'s page. -/
def exPagesC9 : List (String × String) := [("page.png", "pageBytes")]

theorem jsMin_eq_min (a b : ℚ) : jsMin a b = min a b := by
  rw [jsMin, min_def]

theorem jsMax_eq_max (a b : ℚ) : jsMax a b = max a b := by
  rw [jsMax, max_comm, max_def]

theorem mkTask_targetWidth (o : LoadedImage) (s : GlobalAssetStat) (b : ℚ) :
    (mkTask o s b).targetWidth = targetW o s b := rfl

theorem mkTask_targetHeight (o : LoadedImage) (s : GlobalAssetStat) (b : ℚ) :
    (mkTask o s b).targetHeight = targetH o s b := rfl

theorem mkTask_originalWidth (o : LoadedImage) (s : GlobalAssetStat) (b : ℚ) :
    (mkTask o s b).originalWidth = physicalW o := rfl

theorem mkTask_originalHeight (o : LoadedImage) (s : GlobalAssetStat) (b : ℚ) :
    (mkTask o s b).originalHeight = physicalH o := rfl

theorem mkTask_isResize (o : LoadedImage) (s : GlobalAssetStat) (b : ℚ) :
    (mkTask o s b).isResize
      = decide (targetW o s b ≠ physicalW o ∨ targetH o s b ≠ physicalH o) := rfl

theorem mkTask_isResize_true_iff (o : LoadedImage) (s : GlobalAssetStat) (b : ℚ) :
    (mkTask o s b).isResize = true ↔
      (targetW o s b ≠ physicalW o ∨ targetH o s b ≠ physicalH o) := by
  rw [mkTask_isResize, decide_eq_true_iff]

theorem calculateOptimizationTargets_eq_sort (stats : List GlobalAssetStat)
    (loadedImages : List (String × LoadedImage)) (b : ℚ) :
    calculateOptimizationTargets stats loadedImages b =
      List.insertionSort taskBefore (preSortTasks stats loadedImages b) := rfl

theorem orderedInsert_of_isResize (a : OptimizationTask) (l : List OptimizationTask)
    (ha : a.isResize = true) : List.orderedInsert taskBefore a l = a :: l := by
  cases l with
  | nil => rfl
  | cons c cs =>
    rw [List.orderedInsert, if_pos (show taskBefore a c from Or.inl ha)]

theorem orderedInsert_all_not_isResize (a : OptimizationTask) (l : List OptimizationTask)
    (hl : ∀ x ∈ l, x.isResize = false) : List.orderedInsert taskBefore a l = a :: l := by
  cases l with
  | nil => rfl
  | cons c cs =>
    rw [List.orderedInsert, if_pos (show taskBefore a c from Or.inr (hl c (List.mem_cons_self c cs)))]

theorem orderedInsert_append_not_before (a : OptimizationTask) (l₁ l₂ : List OptimizationTask)
    (h₁ : ∀ x ∈ l₁, ¬ taskBefore a x) :
    List.orderedInsert taskBefore a (l₁ ++ l₂) = l₁ ++ List.orderedInsert taskBefore a l₂ := by
  induction l₁ with
  | nil => simp
  | cons c cs ih =>
    rw [List.cons_append, List.orderedInsert, if_neg (h₁ c (List.mem_cons_self c cs)),
      List.cons_append, ih fun x hx => h₁ x (List.mem_cons_of_mem c hx)]

/-- Stable insertion sort over the comparator relation is the stable partition:
resized tasks first, original relative order within each part. -/
theorem insertionSort_taskBefore_partition (l : List OptimizationTask) :
    List.insertionSort taskBefore l =
      l.filter (fun t => t.isResize) ++ l.filter (fun t => !t.isResize) := by
  induction l with
  | nil => rfl
  | cons a l ih =>
    rw [List.insertionSort, ih]
    by_cases ha : a.isResize = true
    · rw [orderedInsert_of_isResize a _ ha]
      simp [List.filter_cons, ha]
    · have ha' : a.isResize = false := by
        revert ha; cases a.isResize <;> simp
      have hAll : ∀ x ∈ l.filter (fun t => t.isResize), ¬ taskBefore a x := by
        intro x hx
        have hxr : x.isResize = true := by simpa using (List.mem_filter.mp hx).2
        simp [taskBefore, ha', hxr]
      have hFalse : ∀ x ∈ l.filter (fun t => !t.isResize), x.isResize = false := by
        intro x hx
        simpa using (List.mem_filter.mp hx).2
      rw [orderedInsert_append_not_before a _ _ hAll, orderedInsert_all_not_isResize a _ hFalse]
      simp [List.filter_cons, ha']

/-- Characterization of membership in the produced task list. -/
theorem mem_calculateOptimizationTargets {stats : List GlobalAssetStat}
    {loaded : List (String × LoadedImage)} {b : ℚ} {t : OptimizationTask} :
    t ∈ calculateOptimizationTargets stats loaded b ↔
      ∃ kv ∈ loaded, ∃ stat, statsLookup stats kv.1 = some stat ∧ mkTask kv.2 stat b = t := by
  rw [calculateOptimizationTargets_eq_sort,
    (List.perm_insertionSort taskBefore (preSortTasks stats loaded b)).mem_iff]
  simp [preSortTasks, List.mem_filterMap, Option.map_eq_some']

theorem length_filterMap_eq_length_filter_isSome {α β : Type} (f : α → Option β) (l : List α) :
    (l.filterMap f).length = (l.filter fun a => (f a).isSome).length := by
  induction l with
  | nil => rfl
  | cons a l ih =>
    rw [List.filterMap_cons, List.filter_cons]
    cases h : f a <;> simp [h, ih]

/-- C6: the task list returned by `calculateOptimizationTargets` is the stable
partition of the constructed tasks: every `isResize = true` task precedes every
`isResize = false` task and each group keeps the input iteration order; on the
worked example whose input-order resize pattern is
[r1 ↦ false, r2 ↦ true, r3 ↦ false, r4 ↦ true] the output order is
[r2, r4, r1, r3]. -/
theorem claim_C6 :
    (∀ (stats : List GlobalAssetStat) (loadedImages : List (String × LoadedImage)) (b : ℚ),
      calculateOptimizationTargets stats loadedImages b =
        (preSortTasks stats loadedImages b).filter (fun t => t.isResize) ++
          (preSortTasks stats loadedImages b).filter (fun t => !t.isResize))
    ∧ (preSortTasks exStatsC6 exLoadedC6 0).map (fun t => (t.relativePath, t.isResize))
        = [("r1", false), ("r2", true), ("r3", false), ("r4", true)]
    ∧ (calculateOptimizationTargets exStatsC6 exLoadedC6 0).map (fun t => t.relativePath)
        = ["r2", "r4", "r1", "r3"] := by
  have h100 : (⌈(100:ℚ)⌉ : ℤ) = 100 := by rw [Int.ceil_eq_iff]; norm_num
  have h50 : (⌈(50:ℚ)⌉ : ℤ) = 50 := by rw [Int.ceil_eq_iff]; norm_num
  have h60 : (⌈(60:ℚ)⌉ : ℤ) = 60 := by rw [Int.ceil_eq_iff]; norm_num
  refine ⟨fun stats loaded b => ?_, ?_, ?_⟩
  · rw [calculateOptimizationTargets_eq_sort]
    exact insertionSort_taskBefore_partition _
  · norm_num +decide [preSortTasks, statsLookup, exStatsC6, exLoadedC6, mkTask, targetW, targetH,
      List.filterMap_cons, List.foldl_cons, List.foldl_nil, Option.map_some', Option.map_none',
      jsMax, jsMin, calculatedW, calculatedH, physicalW, physicalH, h100, h50, h60]
  · norm_num +decide [calculateOptimizationTargets, List.insertionSort, List.orderedInsert,
      taskBefore, statsLookup, exStatsC6, exLoadedC6, mkTask, targetW, targetH,
      List.filterMap_cons, List.foldl_cons, List.foldl_nil, Option.map_some', Option.map_none',
      jsMax, jsMin, calculatedW, calculatedH, physicalW, physicalH, h100, h50, h60]

/-- C5: a loaded image whose key has no stat entry contributes no task (deleting
such an entry leaves the output unchanged), a loaded image whose key has a stat
entry contributes its task, and the number of tasks equals the number of loaded
entries whose key is present in the stats map — all regardless of the buffer
percentage. -/
theorem claim_C5 :
    (∀ (stats : List GlobalAssetStat) (l₁ l₂ : List (String × LoadedImage))
        (kv : String × LoadedImage) (b : ℚ),
      statsLookup stats kv.1 = none →
        calculateOptimizationTargets stats (l₁ ++ kv :: l₂) b
          = calculateOptimizationTargets stats (l₁ ++ l₂) b)
    ∧ (∀ (stats : List GlobalAssetStat) (loaded : List (String × LoadedImage))
        (kv : String × LoadedImage) (stat : GlobalAssetStat) (b : ℚ),
      kv ∈ loaded → statsLookup stats kv.1 = some stat →
        mkTask kv.2 stat b ∈ calculateOptimizationTargets stats loaded b)
    ∧ (∀ (stats : List GlobalAssetStat) (loaded : List (String × LoadedImage)) (b : ℚ),
      (calculateOptimizationTargets stats loaded b).length
        = (loaded.filter fun kv => (statsLookup stats kv.1).isSome).length) := by
  refine ⟨fun stats l₁ l₂ kv b hnone => ?_, fun stats loaded kv stat b hkv hstat => ?_,
    fun stats loaded b => ?_⟩
  · rw [calculateOptimizationTargets_eq_sort, calculateOptimizationTargets_eq_sort]
    congr 1
    simp [preSortTasks, List.filterMap_append, List.filterMap_cons, hnone]
  · exact mem_calculateOptimizationTargets.mpr ⟨kv, hkv, stat, hstat, rfl⟩
  · rw [calculateOptimizationTargets_eq_sort,
      (List.perm_insertionSort taskBefore (preSortTasks stats loaded b)).length_eq]
    unfold preSortTasks
    rw [length_filterMap_eq_length_filter_isSome]
    apply congrArg List.length
    apply List.filter_congr
    intro kv _
    cases statsLookup stats kv.1 <;> simp

/-- Closed witness for C5 at concrete inputs. -/
theorem claim_C5_witness :
    calculateOptimizationTargets [exStatHero] ([] ++ ("miss", exImg150) :: []) 0
      = calculateOptimizationTargets [exStatHero] ([] ++ []) 0
    ∧ mkTask exImgHero exStatHero 0
        ∈ calculateOptimizationTargets [exStatHero] [("hero", exImgHero)] 0 := by
  constructor
  · exact claim_C5.1 [exStatHero] [] [] ("miss", exImg150) 0 rfl
  · exact claim_C5.2.1 [exStatHero] [("hero", exImgHero)] ("hero", exImgHero) exStatHero 0
      (List.mem_cons_self _ _) rfl

/-- C1 as stated is false on the code: for a non-overridden stat with
`maxRenderWidth = 0` on a 100×100 image, the claimed formula
`min(ceil(maxRender × (1+buffer/100)), physical)` yields 0, but the code's
floor clamp produces a target of 1. -/
theorem claim_C1_counterexample :
    ¬ ((calculateOptimizationTargets [cStatZeroRender] [("zero", cImgZeroRender)] 0).map
          (fun t => t.targetWidth)
        = [jsMin ((⌈cStatZeroRender.maxRenderWidth * (1 + (0:ℚ) / 100)⌉ : ℤ) : ℚ)
            (physicalW cImgZeroRender)]) := by
  intro h
  have h0 : (⌈(0:ℚ)⌉ : ℤ) = 0 := by rw [Int.ceil_eq_iff]; norm_num
  norm_num +decide [calculateOptimizationTargets, List.insertionSort, List.orderedInsert,
    taskBefore, statsLookup, cStatZeroRender, cImgZeroRender, mkTask, targetW, targetH,
    List.filterMap_cons, List.foldl_cons, List.foldl_nil, Option.map_some', Option.map_none',
    jsMax, jsMin, calculatedW, calculatedH, physicalW, physicalH, h0] at h

/-- C1 (amended): for every produced task whose stat is not overridden, the
per-axis target is `max(1, min(ceil(maxRender × (1 + buffer/100)), physical))`
— the code additionally floor-clamps the claimed minimum at 1 — and on the
worked example (maxRender 512×256, physical 1024×512, buffer 10) the target is
(564, 282) with `isResize = true`. -/
theorem claim_C1 :
    (∀ (stats : List GlobalAssetStat) (loaded : List (String × LoadedImage)) (b : ℚ)
        (t : OptimizationTask), t ∈ calculateOptimizationTargets stats loaded b →
      ∃ kv, kv ∈ loaded ∧ ∃ stat, statsLookup stats kv.1 = some stat ∧
        (stat.isOverridden = false →
          t.targetWidth
            = jsMax 1 (jsMin ((⌈stat.maxRenderWidth * (1 + b / 100)⌉ : ℤ) : ℚ)
                (physicalW kv.2)) ∧
          t.targetHeight
            = jsMax 1 (jsMin ((⌈stat.maxRenderHeight * (1 + b / 100)⌉ : ℤ) : ℚ)
                (physicalH kv.2))))
    ∧ (calculateOptimizationTargets [exStatHero] [("hero", exImgHero)] 10).map
        (fun t => (t.targetWidth, t.targetHeight, t.isResize)) = [(564, 282, true)] := by
  constructor
  · intro stats loaded b t ht
    rcases mem_calculateOptimizationTargets.mp ht with ⟨kv, hkv, stat, hstat, rfl⟩
    refine ⟨kv, hkv, stat, hstat, fun hov => ⟨?_, ?_⟩⟩
    · rw [mkTask_targetWidth, targetW, calculatedW, if_neg (by simp [hov])]
    · rw [mkTask_targetHeight, targetH, calculatedH, if_neg (by simp [hov])]
  · have h1 : (⌈(2816:ℚ)/5⌉ : ℤ) = 564 := by rw [Int.ceil_eq_iff]; norm_num
    have h2 : (⌈(1408:ℚ)/5⌉ : ℤ) = 282 := by rw [Int.ceil_eq_iff]; norm_num
    norm_num +decide [calculateOptimizationTargets, List.insertionSort, List.orderedInsert,
      taskBefore, statsLookup, exStatHero, exImgHero, mkTask, targetW, targetH,
      List.filterMap_cons, List.foldl_cons, List.foldl_nil, Option.map_some', Option.map_none',
      jsMax, jsMin, calculatedW, calculatedH, physicalW, physicalH, h1, h2]

/-- Closed witness for C1 at the worked example. -/
theorem claim_C1_witness :
    ∃ kv, kv ∈ [("hero", exImgHero)] ∧ ∃ stat, statsLookup [exStatHero] kv.1 = some stat ∧
      (stat.isOverridden = false →
        (mkTask exImgHero exStatHero 10).targetWidth
          = jsMax 1 (jsMin ((⌈stat.maxRenderWidth * (1 + (10:ℚ) / 100)⌉ : ℤ) : ℚ)
              (physicalW kv.2)) ∧
        (mkTask exImgHero exStatHero 10).targetHeight
          = jsMax 1 (jsMin ((⌈stat.maxRenderHeight * (1 + (10:ℚ) / 100)⌉ : ℤ) : ℚ)
              (physicalH kv.2))) :=
  claim_C1.1 [exStatHero] [("hero", exImgHero)] 10 (mkTask exImgHero exStatHero 10)
    (mem_calculateOptimizationTargets.mpr
      ⟨("hero", exImgHero), List.mem_cons_self _ _, exStatHero, rfl, rfl⟩)

/-- C2 as stated is false on the code: an overridden 200×200 requirement on a
degenerate 0×0 physical image yields a 1×1 target, which exceeds both physical
dimensions — the floor clamp can upscale past a sub-pixel physical size. -/
theorem claim_C2_counterexample :
    ∃ t, t ∈ calculateOptimizationTargets [cStatOvDeg] [("deg", cImgZeroPhys)] 0
      ∧ physicalW cImgZeroPhys < t.targetWidth ∧ physicalH cImgZeroPhys < t.targetHeight := by
  refine ⟨mkTask cImgZeroPhys cStatOvDeg 0,
    mem_calculateOptimizationTargets.mpr
      ⟨("deg", cImgZeroPhys), List.mem_cons_self _ _, cStatOvDeg, rfl, rfl⟩, ?_, ?_⟩
  · norm_num [mkTask_targetWidth, targetW, calculatedW, physicalW, jsMax, jsMin,
      cImgZeroPhys, cStatOvDeg]
  · norm_num [mkTask_targetHeight, targetH, calculatedH, physicalH, jsMax, jsMin,
      cImgZeroPhys, cStatOvDeg]

/-- C2 (amended): for an overridden stat the buffer percentage is irrelevant
and the per-axis target is `max(1, min(maxRender, physical))`; the physical cap
(no upscaling) holds whenever the physical dimension is at least 1 (the 1-pixel
floor clamp is the only exception); the worked example
(override 200×200, physical 150×150) gives (150, 150) with `isResize = false`. -/
theorem claim_C2 :
    (∀ (stats : List GlobalAssetStat) (loaded : List (String × LoadedImage)) (b : ℚ)
        (t : OptimizationTask), t ∈ calculateOptimizationTargets stats loaded b →
      ∃ kv, kv ∈ loaded ∧ ∃ stat, statsLookup stats kv.1 = some stat ∧
        (stat.isOverridden = true →
          t.targetWidth = jsMax 1 (jsMin stat.maxRenderWidth (physicalW kv.2)) ∧
          t.targetHeight = jsMax 1 (jsMin stat.maxRenderHeight (physicalH kv.2))) ∧
        (1 ≤ physicalW kv.2 → t.targetWidth ≤ physicalW kv.2) ∧
        (1 ≤ physicalH kv.2 → t.targetHeight ≤ physicalH kv.2))
    ∧ (∀ (img : LoadedImage) (stat : GlobalAssetStat) (b₁ b₂ : ℚ),
        stat.isOverridden = true → mkTask img stat b₁ = mkTask img stat b₂)
    ∧ (calculateOptimizationTargets [exStatOv] [("ov", exImg150)] 37).map
        (fun t => (t.targetWidth, t.targetHeight, t.isResize)) = [(150, 150, false)] := by
  refine ⟨?_, ?_, ?_⟩
  · intro stats loaded b t ht
    rcases mem_calculateOptimizationTargets.mp ht with ⟨kv, hkv, stat, hstat, rfl⟩
    refine ⟨kv, hkv, stat, hstat, fun hov => ⟨?_, ?_⟩, fun h1 => ?_, fun h1 => ?_⟩
    · rw [mkTask_targetWidth, targetW, calculatedW, if_pos hov]
    · rw [mkTask_targetHeight, targetH, calculatedH, if_pos hov]
    · rw [mkTask_targetWidth, targetW, jsMax_eq_max, jsMin_eq_min]
      exact max_le h1 (min_le_right _ _)
    · rw [mkTask_targetHeight, targetH, jsMax_eq_max, jsMin_eq_min]
      exact max_le h1 (min_le_right _ _)
  · intro img stat b₁ b₂ h
    simp [mkTask, targetW, targetH, calculatedW, calculatedH, h]
  · norm_num +decide [calculateOptimizationTargets, List.insertionSort, List.orderedInsert,
      taskBefore, statsLookup, exStatOv, exImg150, mkTask, targetW, targetH,
      List.filterMap_cons, List.foldl_cons, List.foldl_nil, Option.map_some', Option.map_none',
      jsMax, jsMin, calculatedW, calculatedH, physicalW, physicalH]

/-- Closed witness for C2 at the override example. -/
theorem claim_C2_witness :
    (∃ kv, kv ∈ [("ov", exImg150)] ∧ ∃ stat, statsLookup [exStatOv] kv.1 = some stat ∧
      (stat.isOverridden = true →
        (mkTask exImg150 exStatOv 37).targetWidth
          = jsMax 1 (jsMin stat.maxRenderWidth (physicalW kv.2)) ∧
        (mkTask exImg150 exStatOv 37).targetHeight
          = jsMax 1 (jsMin stat.maxRenderHeight (physicalH kv.2))) ∧
      (1 ≤ physicalW kv.2 → (mkTask exImg150 exStatOv 37).targetWidth ≤ physicalW kv.2) ∧
      (1 ≤ physicalH kv.2 → (mkTask exImg150 exStatOv 37).targetHeight ≤ physicalH kv.2))
    ∧ mkTask exImg150 exStatOv 5 = mkTask exImg150 exStatOv 99 := by
  constructor
  · exact claim_C2.1 [exStatOv] [("ov", exImg150)] 37 (mkTask exImg150 exStatOv 37)
      (mem_calculateOptimizationTargets.mpr
        ⟨("ov", exImg150), List.mem_cons_self _ _, exStatOv, rfl, rfl⟩)
  · exact claim_C2.2.1 exImg150 exStatOv 5 99 rfl

/-- C3 as stated is false on the code: on a degenerate 0×0 physical image the
produced task has `targetWidth = 1 > 0 = originalWidth`, violating
`targetWidth ≤ originalWidth`. -/
theorem claim_C3_counterexample :
    ∃ t, t ∈ calculateOptimizationTargets [cStatDeg2] [("deg2", cImgZeroPhys2)] 0
      ∧ t.originalWidth < t.targetWidth := by
  refine ⟨mkTask cImgZeroPhys2 cStatDeg2 0,
    mem_calculateOptimizationTargets.mpr
      ⟨("deg2", cImgZeroPhys2), List.mem_cons_self _ _, cStatDeg2, rfl, rfl⟩, ?_⟩
  have h50 : (⌈(50:ℚ)⌉ : ℤ) = 50 := by rw [Int.ceil_eq_iff]; norm_num
  norm_num [mkTask_originalWidth, mkTask_targetWidth, targetW, calculatedW, physicalW,
    jsMax, jsMin, cImgZeroPhys2, cStatDeg2, h50]

/-- C3 (amended): every produced task satisfies `1 ≤ targetWidth`,
`1 ≤ targetHeight`, and `isResize ⇔ (targetWidth ≠ originalWidth ∨
targetHeight ≠ originalHeight)`; the upper bounds `targetWidth ≤ originalWidth`
and `targetHeight ≤ originalHeight` hold whenever the corresponding physical
dimension is at least 1 (they fail for degenerate sub-pixel physical sizes). -/
theorem claim_C3 :
    ∀ (stats : List GlobalAssetStat) (loaded : List (String × LoadedImage)) (b : ℚ)
        (t : OptimizationTask), t ∈ calculateOptimizationTargets stats loaded b →
      1 ≤ t.targetWidth ∧ 1 ≤ t.targetHeight
      ∧ (t.isResize = true ↔
          (t.targetWidth ≠ t.originalWidth ∨ t.targetHeight ≠ t.originalHeight))
      ∧ (1 ≤ t.originalWidth → t.targetWidth ≤ t.originalWidth)
      ∧ (1 ≤ t.originalHeight → t.targetHeight ≤ t.originalHeight) := by
  intro stats loaded b t ht
  rcases mem_calculateOptimizationTargets.mp ht with ⟨kv, hkv, stat, hstat, rfl⟩
  refine ⟨?_, ?_, ?_, fun h1 => ?_, fun h1 => ?_⟩
  · rw [mkTask_targetWidth, targetW, jsMax_eq_max]
    exact le_max_left _ _
  · rw [mkTask_targetHeight, targetH, jsMax_eq_max]
    exact le_max_left _ _
  · rw [mkTask_targetWidth, mkTask_targetHeight, mkTask_originalWidth, mkTask_originalHeight]
    exact mkTask_isResize_true_iff _ _ _
  · rw [mkTask_originalWidth] at h1 ⊢
    rw [mkTask_targetWidth, targetW, jsMax_eq_max, jsMin_eq_min]
    exact max_le h1 (min_le_right _ _)
  · rw [mkTask_originalHeight] at h1 ⊢
    rw [mkTask_targetHeight, targetH, jsMax_eq_max, jsMin_eq_min]
    exact max_le h1 (min_le_right _ _)

/-- Closed witness for C3 at the worked example. -/
theorem claim_C3_witness :
    1 ≤ (mkTask exImgHero exStatHero 10).targetWidth
    ∧ 1 ≤ (mkTask exImgHero exStatHero 10).targetHeight
    ∧ ((mkTask exImgHero exStatHero 10).isResize = true ↔
        ((mkTask exImgHero exStatHero 10).targetWidth
            ≠ (mkTask exImgHero exStatHero 10).originalWidth
          ∨ (mkTask exImgHero exStatHero 10).targetHeight
            ≠ (mkTask exImgHero exStatHero 10).originalHeight))
    ∧ (1 ≤ (mkTask exImgHero exStatHero 10).originalWidth →
        (mkTask exImgHero exStatHero 10).targetWidth
          ≤ (mkTask exImgHero exStatHero 10).originalWidth)
    ∧ (1 ≤ (mkTask exImgHero exStatHero 10).originalHeight →
        (mkTask exImgHero exStatHero 10).targetHeight
          ≤ (mkTask exImgHero exStatHero 10).originalHeight) :=
  claim_C3 [exStatHero] [("hero", exImgHero)] 10 (mkTask exImgHero exStatHero 10)
    (mem_calculateOptimizationTargets.mpr
      ⟨("hero", exImgHero), List.mem_cons_self _ _, exStatHero, rfl, rfl⟩)

/-- C10: the physical dimensions used for the cap, for the `isResize`
comparison, and reported as `originalWidth/originalHeight` are
`sourceWidth ?? width` and `sourceHeight ?? height` of the loaded entry. -/
theorem claim_C10 :
    ∀ (stats : List GlobalAssetStat) (loaded : List (String × LoadedImage)) (b : ℚ)
        (t : OptimizationTask), t ∈ calculateOptimizationTargets stats loaded b →
      ∃ kv, kv ∈ loaded ∧ ∃ stat, statsLookup stats kv.1 = some stat
        ∧ t.originalWidth = kv.2.sourceWidth.getD kv.2.width
        ∧ t.originalHeight = kv.2.sourceHeight.getD kv.2.height
        ∧ t.targetWidth = jsMax 1 (jsMin (calculatedW stat b) t.originalWidth)
        ∧ t.targetHeight = jsMax 1 (jsMin (calculatedH stat b) t.originalHeight)
        ∧ (t.isResize = true ↔
            (t.targetWidth ≠ t.originalWidth ∨ t.targetHeight ≠ t.originalHeight)) := by
  intro stats loaded b t ht
  rcases mem_calculateOptimizationTargets.mp ht with ⟨kv, hkv, stat, hstat, rfl⟩
  refine ⟨kv, hkv, stat, hstat, rfl, rfl, rfl, rfl, ?_⟩
  rw [mkTask_targetWidth, mkTask_targetHeight, mkTask_originalWidth, mkTask_originalHeight]
  exact mkTask_isResize_true_iff _ _ _

/-- Closed witness for C10 at the override example. -/
theorem claim_C10_witness :
    ∃ kv, kv ∈ [("ov", exImg150)] ∧ ∃ stat, statsLookup [exStatOv] kv.1 = some stat
      ∧ (mkTask exImg150 exStatOv 5).originalWidth = kv.2.sourceWidth.getD kv.2.width
      ∧ (mkTask exImg150 exStatOv 5).originalHeight = kv.2.sourceHeight.getD kv.2.height
      ∧ (mkTask exImg150 exStatOv 5).targetWidth
          = jsMax 1 (jsMin (calculatedW stat 5) (mkTask exImg150 exStatOv 5).originalWidth)
      ∧ (mkTask exImg150 exStatOv 5).targetHeight
          = jsMax 1 (jsMin (calculatedH stat 5) (mkTask exImg150 exStatOv 5).originalHeight)
      ∧ ((mkTask exImg150 exStatOv 5).isResize = true ↔
          ((mkTask exImg150 exStatOv 5).targetWidth
              ≠ (mkTask exImg150 exStatOv 5).originalWidth
            ∨ (mkTask exImg150 exStatOv 5).targetHeight
              ≠ (mkTask exImg150 exStatOv 5).originalHeight)) :=
  claim_C10 [exStatOv] [("ov", exImg150)] 5 (mkTask exImg150 exStatOv 5)
    (mem_calculateOptimizationTargets.mpr
      ⟨("ov", exImg150), List.mem_cons_self _ _, exStatOv, rfl, rfl⟩)

/-- C7: the output file name strips the trailing extension only when the last
dot occurs after the last path separator, then appends ".png":
"characters/hero.png" maps to itself, "a.b/c" maps to "a.b/c.png" (never
"a.c.png"), and every produced task's `fileName` is derived this way from its
`relativePath`. -/
theorem claim_C7 :
    (∀ p : List Char,
      lastIndexOfChar p '.' ≤ max (lastIndexOfChar p '/') (lastIndexOfChar p '\\') →
        outputFileNameChars p = p ++ ".png".data)
    ∧ (∀ p : List Char,
      max (lastIndexOfChar p '/') (lastIndexOfChar p '\\') < lastIndexOfChar p '.' →
        outputFileNameChars p = p.take (lastIndexOfChar p '.').toNat ++ ".png".data)
    ∧ outputFileName "characters/hero.png" = "characters/hero.png"
    ∧ outputFileName "a.b/c" = "a.b/c.png"
    ∧ outputFileName "a.b/c" ≠ "a.c.png"
    ∧ (∀ (stats : List GlobalAssetStat) (loaded : List (String × LoadedImage)) (b : ℚ)
        (t : OptimizationTask), t ∈ calculateOptimizationTargets stats loaded b →
          t.fileName = outputFileName t.relativePath) := by
  refine ⟨fun p h => ?_, fun p h => ?_, by decide, by decide, by decide,
    fun stats loaded b t ht => ?_⟩
  · simp only [outputFileNameChars]
    rw [if_neg (not_lt.mpr h)]
  · simp only [outputFileNameChars]
    rw [if_pos h]
  · rcases mem_calculateOptimizationTargets.mp ht with ⟨kv, hkv, stat, hstat, rfl⟩
    rfl

/-- Closed witness for C7: a path with no dot, a path with an extension, and a
produced task. -/
theorem claim_C7_witness :
    outputFileNameChars "noext".data = "noext".data ++ ".png".data
    ∧ outputFileNameChars "img.jpeg".data
        = "img.jpeg".data.take (lastIndexOfChar "img.jpeg".data '.').toNat ++ ".png".data
    ∧ (mkTask exImgHero exStatHero 10).fileName
        = outputFileName (mkTask exImgHero exStatHero 10).relativePath :=
  ⟨claim_C7.1 _ (by decide), claim_C7.2.1 _ (by decide),
    claim_C7.2.2.2.2.2 [exStatHero] [("hero", exImgHero)] 10 (mkTask exImgHero exStatHero 10)
      (mem_calculateOptimizationTargets.mpr
        ⟨("hero", exImgHero), List.mem_cons_self _ _, exStatHero, rfl, rfl⟩)⟩

/-- The rotated draw of `extractRegion` covers exactly the axis-aligned
rectangle of width `region.height` and height `region.width` whose bottom-left
(in canvas coordinates, top-left origin) is at `(destX, destY)`. -/
theorem drawnRegion_rotated_eq (r : AtlasRegion) (h : r.rotated = true) :
    drawnRegion r
      = Set.Icc (destX r) (destX r + r.height) ×ˢ Set.Icc (destY r) (destY r + r.width) := by
  rw [drawnRegion, if_pos h]
  ext q
  obtain ⟨px, py⟩ := q
  simp only [Set.mem_image, Set.mem_prod, Set.mem_Icc, rotatedPoint, Prod.exists,
    Prod.mk.injEq]
  constructor
  · rintro ⟨u, v, ⟨⟨hu0, huw⟩, hv0, hvh⟩, hx, hy⟩
    constructor
    · constructor <;> linarith
    · constructor <;> linarith
  · rintro ⟨⟨hx0, hx1⟩, hy0, hy1⟩
    refine ⟨destY r + r.width - py, px - destX r,
      ⟨⟨by linarith, by linarith⟩, by linarith, by linarith⟩, by ring, by ring⟩

/-- C4 as stated is false on the code: for the worked rotated region the
restored content does not occupy a 50-wide × 30-tall footprint at
`(destX, destY) = (5, 0)` — the drawn set is not `[5,55] × [0,30]`. -/
theorem claim_C4_counterexample :
    ¬ drawnRegion exRegionC4 = Set.Icc (5:ℚ) 55 ×ˢ Set.Icc (0:ℚ) 30 := by
  intro h
  have hmem : ((10:ℚ), (40:ℚ)) ∈ drawnRegion exRegionC4 := by
    rw [drawnRegion_rotated_eq exRegionC4 rfl]
    refine ⟨?_, ?_⟩ <;>
      norm_num [destX, destY, packedHeightInOriginalSpace, exRegionC4]
  rw [h] at hmem
  rcases hmem with ⟨_, _, hy⟩
  norm_num at hy

/-- C4 (amended): on the worked rotated region the canvas is 80×60,
`destX = 5`, `destY = 60 − (10 + 50) = 0` with `packedSpan = width` when
rotated, and the restored content occupies a 30-wide × 50-tall footprint
(`[5,35] × [0,50]`): the −90° rotation swaps the footprint axes relative to
the packed `width × height`. -/
theorem claim_C4 :
    extractCanvas exRegionC4 = (80, 60)
    ∧ destX exRegionC4 = 5
    ∧ destY exRegionC4 = 0
    ∧ drawnRegion exRegionC4 = Set.Icc (5:ℚ) 35 ×ˢ Set.Icc (0:ℚ) 50
    ∧ (∀ r : AtlasRegion,
        destY r = r.originalHeight - (r.offsetY + (if r.rotated then r.width else r.height))) := by
  have hdY : destY exRegionC4 = 0 := by
    norm_num [destY, packedHeightInOriginalSpace, exRegionC4]
  refine ⟨rfl, rfl, hdY, ?_, fun r => rfl⟩
  rw [drawnRegion_rotated_eq exRegionC4 rfl, hdY]
  norm_num [destX, exRegionC4]

theorem zipLoop_entries (resize : String → ℚ → ℚ → Option String) (total : ℕ) :
    ∀ (ts : List OptimizationTask) (c : ℕ),
      (zipLoop resize total ts c).1 = ts.map (zipEntryOf resize) := by
  intro ts
  induction ts with
  | nil => intro c; rfl
  | cons task rest ih =>
    intro c
    cases h : resize task.blob task.targetWidth task.targetHeight <;>
      simp [zipLoop, zipEntryOf, h, ih]

theorem zipLoop_trace (resize : String → ℚ → ℚ → Option String) (total : ℕ) :
    ∀ (ts : List OptimizationTask) (c : ℕ),
      (zipLoop resize total ts c).2
        = (List.range' (c + 1) ts.length).map (fun k => (k, total)) := by
  intro ts
  induction ts with
  | nil => intro c; rfl
  | cons task rest ih =>
    intro c
    rw [List.length_cons, List.range'_succ, List.map_cons]
    simp [zipLoop, ih]

/-- C8: every task yields exactly one archive entry at its `fileName`: the
resized blob when `isResize` holds and the resizer succeeds, the task's
original blob when the resizer fails, and the original blob when `isResize`
is false — a resize failure never omits the entry. -/
theorem claim_C8 :
    ∀ (resize : String → ℚ → ℚ → Option String) (tasks : List OptimizationTask),
      (generateOptimizedZip resize tasks).1 = tasks.map (zipEntryOf resize)
      ∧ (generateOptimizedZip resize tasks).1.length = tasks.length
      ∧ (∀ t ∈ tasks, t.isResize = true →
          ∀ rb, resize t.blob t.targetWidth t.targetHeight = some rb →
            ZipEntry.mk t.fileName rb ∈ (generateOptimizedZip resize tasks).1)
      ∧ (∀ t ∈ tasks, t.isResize = true →
          resize t.blob t.targetWidth t.targetHeight = none →
            ZipEntry.mk t.fileName t.blob ∈ (generateOptimizedZip resize tasks).1)
      ∧ (∀ t ∈ tasks, t.isResize = false →
          ZipEntry.mk t.fileName t.blob ∈ (generateOptimizedZip resize tasks).1) := by
  intro resize tasks
  have he : (generateOptimizedZip resize tasks).1 = tasks.map (zipEntryOf resize) :=
    zipLoop_entries resize tasks.length tasks 0
  refine ⟨he, by rw [he, List.length_map], ?_, ?_, ?_⟩
  · intro t ht hres rb hrb
    rw [he]
    exact List.mem_map.mpr ⟨t, ht, by simp [zipEntryOf, hres, hrb]⟩
  · intro t ht hres hrb
    rw [he]
    exact List.mem_map.mpr ⟨t, ht, by simp [zipEntryOf, hres, hrb]⟩
  · intro t ht hres
    rw [he]
    exact List.mem_map.mpr ⟨t, ht, by simp [zipEntryOf, hres]⟩

/-- Closed witness for C8: a failing resize keeps the original bytes in the
archive, and a non-resize task is copied as is. -/
theorem claim_C8_witness :
    ZipEntry.mk exTaskResize.fileName exTaskResize.blob
        ∈ (generateOptimizedZip resizeNone [exTaskResize, exTaskPlain]).1
    ∧ ZipEntry.mk exTaskPlain.fileName exTaskPlain.blob
        ∈ (generateOptimizedZip resizeNone [exTaskResize, exTaskPlain]).1 :=
  ⟨(claim_C8 resizeNone [exTaskResize, exTaskPlain]).2.2.2.1 exTaskResize
      (List.mem_cons_self _ _) rfl rfl,
    (claim_C8 resizeNone [exTaskResize, exTaskPlain]).2.2.2.2 exTaskPlain
      (List.mem_cons_of_mem _ (List.mem_cons_self _ _)) rfl⟩

theorem groupsSize_nil : groupsSize [] = 0 := rfl

theorem groupsSize_cons (g : String × List AtlasRegion) (gs : List (String × List AtlasRegion)) :
    groupsSize (g :: gs) = g.2.length + groupsSize gs := by
  simp [groupsSize]

theorem groupsSize_pair_cons (pn : String) (rs : List AtlasRegion)
    (gs : List (String × List AtlasRegion)) :
    groupsSize ((pn, rs) :: gs) = rs.length + groupsSize gs := by
  simp [groupsSize]

theorem groupsSize_pos (gs : List (String × List AtlasRegion)) (hne : gs ≠ [])
    (h : ∀ g ∈ gs, g.2 ≠ []) : 0 < groupsSize gs := by
  cases gs with
  | nil => exact absurd rfl hne
  | cons g rest =>
    have hg : g.2 ≠ [] := h g (List.mem_cons_self _ _)
    have : 0 < g.2.length := List.length_pos.mpr hg
    rw [groupsSize_cons]
    omega

theorem groupsSize_addToGroup (acc : List (String × List AtlasRegion)) (r : AtlasRegion) :
    groupsSize (addToGroup acc r) = groupsSize acc + 1 := by
  induction acc with
  | nil => rfl
  | cons g rest ih =>
    obtain ⟨p, rs⟩ := g
    rw [addToGroup]
    by_cases hp : p = r.pageName
    · rw [if_pos hp, groupsSize_cons, groupsSize_cons]
      simp
      omega
    · rw [if_neg hp, groupsSize_cons, groupsSize_cons, ih]
      omega

theorem nonempty_addToGroup (acc : List (String × List AtlasRegion)) (r : AtlasRegion)
    (h : ∀ g ∈ acc, g.2 ≠ []) : ∀ g ∈ addToGroup acc r, g.2 ≠ [] := by
  induction acc with
  | nil =>
    intro g hg
    rw [addToGroup, List.mem_singleton] at hg
    subst hg
    simp
  | cons a rest ih =>
    obtain ⟨p, rs⟩ := a
    intro g hg
    rw [addToGroup] at hg
    by_cases hp : p = r.pageName
    · rw [if_pos hp] at hg
      rcases List.mem_cons.mp hg with h1 | h1
      · subst h1; simp
      · exact h g (List.mem_cons_of_mem _ h1)
    · rw [if_neg hp] at hg
      rcases List.mem_cons.mp hg with h1 | h1
      · subst h1; exact h (p, rs) (List.mem_cons_self _ _)
      · exact ih (fun g' hg' => h g' (List.mem_cons_of_mem _ hg')) g h1

theorem groupsSize_foldl (l : List AtlasRegion) :
    ∀ acc, groupsSize (l.foldl addToGroup acc) = groupsSize acc + l.length := by
  induction l with
  | nil => intro acc; simp
  | cons r rest ih =>
    intro acc
    rw [List.foldl_cons, ih, groupsSize_addToGroup, List.length_cons]
    omega

theorem groupsSize_groupByPage (l : List AtlasRegion) :
    groupsSize (groupByPage l) = l.length := by
  rw [groupByPage, groupsSize_foldl, groupsSize_nil]
  omega

theorem nonempty_groupByPage (l : List AtlasRegion) : ∀ g ∈ groupByPage l, g.2 ≠ [] := by
  rw [groupByPage]
  have h : ∀ (acc : List (String × List AtlasRegion)), (∀ g ∈ acc, g.2 ≠ []) →
      ∀ g ∈ l.foldl addToGroup acc, g.2 ≠ [] := by
    induction l with
    | nil => intro acc hacc; simpa using hacc
    | cons r rest ih =>
      intro acc hacc
      rw [List.foldl_cons]
      exact ih _ (nonempty_addToGroup acc r hacc)
  exact h [] (by simp)

theorem groupByPage_ne_nil (l : List AtlasRegion) (h : l ≠ []) : groupByPage l ≠ [] := by
  intro hg
  have := groupsSize_groupByPage l
  rw [hg, groupsSize_nil] at this
  exact h (List.length_eq_zero.mp this.symm)

theorem processPageRegions_processed (e : String → AtlasRegion → Option String) (img : String)
    (total : ℕ) : ∀ (rs : List AtlasRegion) (p : ℕ),
      (processPageRegions e img total rs p).2.1 = p + rs.length := by
  intro rs
  induction rs with
  | nil => intro p; rfl
  | cons r rest ih =>
    intro p
    simp [processPageRegions, ih]
    omega

theorem processPageRegions_trace (e : String → AtlasRegion → Option String) (img : String)
    (total : ℕ) : ∀ (rs : List AtlasRegion) (p : ℕ),
      (processPageRegions e img total rs p).2.2
        = (List.range' (p + 1) rs.length).map (fun k => (k, total)) := by
  intro rs
  induction rs with
  | nil => intro p; rfl
  | cons r rest ih =>
    intro p
    rw [List.length_cons, List.range'_succ, List.map_cons]
    simp [processPageRegions, ih]

theorem processPages_trace_bounds (pages : List (String × String)) (decode : String → Option String)
    (e : String → AtlasRegion → Option String) (total : ℕ) :
    ∀ (gs : List (String × List AtlasRegion)) (p : ℕ), (∀ g ∈ gs, g.2 ≠ []) →
      ∀ c ∈ (processPages pages decode e total gs p).2,
        c.2 = total ∧ p < c.1 ∧ c.1 ≤ p + groupsSize gs := by
  intro gs
  induction gs with
  | nil =>
    intro p _ c hc
    simp [processPages] at hc
  | cons g rest ih =>
    obtain ⟨pageName, regions⟩ := g
    intro p hne c hc
    have hreg : regions ≠ [] := hne (pageName, regions) (List.mem_cons_self _ _)
    have hlen : 0 < regions.length := List.length_pos.mpr hreg
    have hrest : ∀ g ∈ rest, g.2 ≠ [] := fun g hg => hne g (List.mem_cons_of_mem _ hg)
    rw [processPages] at hc
    split at hc
    · rcases List.mem_cons.mp hc with h1 | h1
      · subst h1
        rw [groupsSize_pair_cons]
        exact ⟨rfl, by omega, by omega⟩
      · rcases ih (p + regions.length) hrest c h1 with ⟨ht, hlt, hle⟩
        rw [groupsSize_pair_cons]
        exact ⟨ht, by omega, by omega⟩
    · rcases List.mem_append.mp hc with h1 | h1
      · rw [processPageRegions_trace] at h1
        rcases List.mem_map.mp h1 with ⟨k, hk, rfl⟩
        rw [List.mem_range'_1] at hk
        rw [groupsSize_pair_cons]
        exact ⟨rfl, by omega, by omega⟩
      · rw [processPageRegions_processed] at h1
        rcases ih (p + regions.length) hrest c h1 with ⟨ht, hlt, hle⟩
        rw [groupsSize_pair_cons]
        exact ⟨ht, by omega, by omega⟩

theorem processPages_trace_pairwise (pages : List (String × String))
    (decode : String → Option String) (e : String → AtlasRegion → Option String) (total : ℕ) :
    ∀ (gs : List (String × List AtlasRegion)) (p : ℕ), (∀ g ∈ gs, g.2 ≠ []) →
      List.Pairwise (fun a b : ℕ × ℕ => a.1 ≤ b.1)
        (processPages pages decode e total gs p).2 := by
  intro gs
  induction gs with
  | nil => intro p _; simp [processPages]
  | cons g rest ih =>
    obtain ⟨pageName, regions⟩ := g
    intro p hne
    have hrest : ∀ g ∈ rest, g.2 ≠ [] := fun g hg => hne g (List.mem_cons_of_mem _ hg)
    rw [processPages]
    split
    · rw [List.pairwise_cons]
      constructor
      · intro c hc
        have hb := processPages_trace_bounds pages decode e total rest
          (p + regions.length) hrest c hc
        exact le_of_lt hb.2.1
      · exact ih _ hrest
    · apply List.pairwise_append.mpr
      refine ⟨?_, ?_, ?_⟩
      · rw [processPageRegions_trace]
        refine List.Pairwise.map _ ?_ (List.pairwise_lt_range' (p + 1) regions.length)
        intro a b hab
        exact le_of_lt hab
      · rw [processPageRegions_processed]
        exact ih _ hrest
      · intro a ha b hb
        rw [processPageRegions_trace] at ha
        rw [processPageRegions_processed] at hb
        rcases List.mem_map.mp ha with ⟨k, hk, rfl⟩
        rw [List.mem_range'_1] at hk
        have hbb := processPages_trace_bounds pages decode e total rest
          (p + regions.length) hrest b hb
        simp only
        omega

theorem processPages_trace_last (pages : List (String × String))
    (decode : String → Option String) (e : String → AtlasRegion → Option String) (total : ℕ) :
    ∀ (gs : List (String × List AtlasRegion)) (p : ℕ), (∀ g ∈ gs, g.2 ≠ []) → gs ≠ [] →
      ∃ front, (processPages pages decode e total gs p).2
          = front ++ [(p + groupsSize gs, total)]
        ∧ ∀ c ∈ front, c.1 < p + groupsSize gs := by
  intro gs
  induction gs with
  | nil => intro p _ h; exact absurd rfl h
  | cons g rest ih =>
    obtain ⟨pageName, regions⟩ := g
    intro p hne _
    have hreg : regions ≠ [] := hne (pageName, regions) (List.mem_cons_self _ _)
    have hlen : 0 < regions.length := List.length_pos.mpr hreg
    have hrest : ∀ g ∈ rest, g.2 ≠ [] := fun g hg => hne g (List.mem_cons_of_mem _ hg)
    rw [processPages]
    split
    · dsimp only
      by_cases hrt : rest = []
      · subst hrt
        refine ⟨[], ?_, by simp⟩
        rw [groupsSize_pair_cons, groupsSize_nil]
        simp [processPages]
      · rcases ih (p + regions.length) hrest hrt with ⟨front', hfr, hbound⟩
        have hpos : 0 < groupsSize rest := groupsSize_pos rest hrt hrest
        refine ⟨(p + regions.length, total) :: front', ?_, ?_⟩
        · rw [hfr, groupsSize_pair_cons, List.cons_append, Nat.add_assoc]
        · intro c hc
          rw [groupsSize_pair_cons]
          rcases List.mem_cons.mp hc with h1 | h1
          · subst h1
            simp only
            omega
          · have := hbound c h1
            omega
    · dsimp only
      rw [processPageRegions_trace, processPageRegions_processed]
      have hdecomp : List.range' (p + 1) regions.length
          = List.range' (p + 1) (regions.length - 1) ++ [p + regions.length] := by
        have h1 : regions.length = (regions.length - 1) + 1 := by omega
        conv_lhs => rw [h1]
        rw [List.range'_concat]
        have h2 : p + 1 + 1 * (regions.length - 1) = p + regions.length := by omega
        rw [h2]
      by_cases hrt : rest = []
      · subst hrt
        refine ⟨(List.range' (p + 1) (regions.length - 1)).map (fun k => (k, total)), ?_, ?_⟩
        · rw [groupsSize_pair_cons, groupsSize_nil, hdecomp, List.map_append]
          simp [processPages]
        · intro c hc
          rcases List.mem_map.mp hc with ⟨k, hk, rfl⟩
          rw [List.mem_range'_1] at hk
          rw [groupsSize_pair_cons, groupsSize_nil]
          simp only
          omega
      · rcases ih (p + regions.length) hrest hrt with ⟨front', hfr, hbound⟩
        have hpos : 0 < groupsSize rest := groupsSize_pos rest hrt hrest
        refine ⟨(List.range' (p + 1) regions.length).map (fun k => (k, total)) ++ front',
          ?_, ?_⟩
        · rw [hfr, groupsSize_pair_cons, List.append_assoc, Nat.add_assoc]
        · intro c hc
          rw [groupsSize_pair_cons]
          rcases List.mem_append.mp hc with h1 | h1
          · rcases List.mem_map.mp h1 with ⟨k, hk, rfl⟩
            rw [List.mem_range'_1] at hk
            simp only
            omega
          · have := hbound c h1
            omega

theorem processPages_trace_all_decoded (pages : List (String × String))
    (decode : String → Option String) (e : String → AtlasRegion → Option String) (total : ℕ) :
    ∀ (gs : List (String × List AtlasRegion)) (p : ℕ),
      (∀ g ∈ gs, ((pagesLookup pages g.1).bind decode).isSome = true) →
      (processPages pages decode e total gs p).2
        = (List.range' (p + 1) (groupsSize gs)).map (fun k => (k, total)) := by
  intro gs
  induction gs with
  | nil => intro p _; simp [processPages, groupsSize_nil]
  | cons g rest ih =>
    obtain ⟨pageName, regions⟩ := g
    intro p hdec
    have hg : ((pagesLookup pages pageName).bind decode).isSome = true :=
      hdec (pageName, regions) (List.mem_cons_self _ _)
    have hrest : ∀ g ∈ rest, ((pagesLookup pages g.1).bind decode).isSome = true :=
      fun g hgm => hdec g (List.mem_cons_of_mem _ hgm)
    rw [processPages]
    split
    next heq =>
      rw [heq] at hg
      simp at hg
    next img heq =>
      dsimp only
      rw [processPageRegions_trace, processPageRegions_processed, ih _ hrest, groupsSize_pair_cons]
      rw [← List.map_append]
      apply congrArg
      have happ := List.range'_append (p + 1) regions.length (groupsSize rest) 1
      have h2 : p + 1 + 1 * regions.length = p + regions.length + 1 := by omega
      rw [h2] at happ
      rw [happ, Nat.add_comm (groupsSize rest) regions.length]

theorem unpackTextures_trace_eq (texturePages : List (String × String))
    (decode : String → Option String) (extractOracle : String → AtlasRegion → Option String)
    (atlasMetadata : List AtlasRegion) :
    (unpackTextures texturePages decode extractOracle atlasMetadata).2
      = (0, atlasMetadata.length)
          :: (processPages texturePages decode extractOracle atlasMetadata.length
              (groupByPage atlasMetadata) 0).2 := rfl

/-- C9 as stated is false on the code: skipping a missing page advances the
progress counter by the page's whole region count in a single callback (here
two regions produce the trace [(0,2), (2,2)] — no call reports `current = 1`),
and `generateOptimizedZip` with an empty task list never invokes the callback,
so `current` never reaches `total`. -/
theorem claim_C9_counterexample :
    (unpackTextures [] decodeNone extractNone [cRegMissA, cRegMissB]).2 = [(0, 2), (2, 2)]
    ∧ (∀ c ∈ (unpackTextures [] decodeNone extractNone [cRegMissA, cRegMissB]).2, c.1 ≠ 1)
    ∧ (generateOptimizedZip resizeNone []).2 = [] := by
  refine ⟨rfl, ?_, rfl⟩
  decide

/-- C9 (amended): for both loops `total` is fixed at the item count at call
start, successive `current` values never decrease, and the trace ends with a
single final `current = total` entry — with two provisos the original claim
misses: `unpackTextures` reports a skipped page's regions in one coalesced
call (per-region calls are only guaranteed when every page decodes, in which
case the trace is exactly `(0,total)` followed by one call per region), and
`generateOptimizedZip` emits no call at all for an empty task list (its final
`current = total` call requires at least one task). -/
theorem claim_C9 :
    (∀ (texturePages : List (String × String)) (decode : String → Option String)
        (extractOracle : String → AtlasRegion → Option String)
        (atlasMetadata : List AtlasRegion),
      (∀ c ∈ (unpackTextures texturePages decode extractOracle atlasMetadata).2,
          c.2 = atlasMetadata.length)
      ∧ List.Chain' (fun a b : ℕ × ℕ => a.1 ≤ b.1)
          (unpackTextures texturePages decode extractOracle atlasMetadata).2
      ∧ (∃ front, (unpackTextures texturePages decode extractOracle atlasMetadata).2
            = front ++ [(atlasMetadata.length, atlasMetadata.length)]
          ∧ ∀ c ∈ front, c.1 < atlasMetadata.length)
      ∧ ((∀ g ∈ groupByPage atlasMetadata,
            ((pagesLookup texturePages g.1).bind decode).isSome = true) →
          (unpackTextures texturePages decode extractOracle atlasMetadata).2
            = (0, atlasMetadata.length)
                :: (List.range' 1 atlasMetadata.length).map
                    (fun k => (k, atlasMetadata.length))))
    ∧ (∀ (resize : String → ℚ → ℚ → Option String) (tasks : List OptimizationTask),
      (generateOptimizedZip resize tasks).2
          = (List.range' 1 tasks.length).map (fun k => (k, tasks.length))
      ∧ List.Chain' (fun a b : ℕ × ℕ => a.1 ≤ b.1) (generateOptimizedZip resize tasks).2
      ∧ (tasks ≠ [] → ∃ front, (generateOptimizedZip resize tasks).2
            = front ++ [(tasks.length, tasks.length)]
          ∧ ∀ c ∈ front, c.1 < tasks.length)) := by
  constructor
  · intro texturePages decode extractOracle atlasMetadata
    have hne := nonempty_groupByPage atlasMetadata
    refine ⟨?_, ?_, ?_, ?_⟩
    · intro c hc
      rw [unpackTextures_trace_eq] at hc
      rcases List.mem_cons.mp hc with h1 | h1
      · subst h1; rfl
      · exact (processPages_trace_bounds texturePages decode extractOracle
          atlasMetadata.length (groupByPage atlasMetadata) 0 hne c h1).1
    · rw [unpackTextures_trace_eq]
      apply List.Pairwise.chain'
      rw [List.pairwise_cons]
      exact ⟨fun c _ => Nat.zero_le _,
        processPages_trace_pairwise texturePages decode extractOracle
          atlasMetadata.length (groupByPage atlasMetadata) 0 hne⟩
    · rcases eq_or_ne atlasMetadata [] with h | h
      · subst h
        exact ⟨[], rfl, by simp⟩
      · have hgne := groupByPage_ne_nil atlasMetadata h
        rcases processPages_trace_last texturePages decode extractOracle
          atlasMetadata.length (groupByPage atlasMetadata) 0 hne hgne with ⟨front, hfr, hbound⟩
        rw [Nat.zero_add, groupsSize_groupByPage] at hfr hbound
        have hTpos : 0 < atlasMetadata.length := List.length_pos.mpr h
        refine ⟨(0, atlasMetadata.length) :: front, ?_, ?_⟩
        · rw [unpackTextures_trace_eq, hfr, List.cons_append]
        · intro c hc
          rcases List.mem_cons.mp hc with h1 | h1
          · subst h1; exact hTpos
          · exact hbound c h1
    · intro hdec
      rw [unpackTextures_trace_eq,
        processPages_trace_all_decoded texturePages decode extractOracle
          atlasMetadata.length (groupByPage atlasMetadata) 0 hdec,
        groupsSize_groupByPage]
  · intro resize tasks
    have htr : (generateOptimizedZip resize tasks).2
        = (List.range' 1 tasks.length).map (fun k => (k, tasks.length)) :=
      zipLoop_trace resize tasks.length tasks 0
    refine ⟨htr, ?_, ?_⟩
    · rw [htr]
      apply List.Pairwise.chain'
      refine List.Pairwise.map _ ?_ (List.pairwise_lt_range' 1 tasks.length)
      intro a b hab
      exact le_of_lt hab
    · intro hne
      cases tasks with
      | nil => exact absurd rfl hne
      | cons t rest =>
        refine ⟨(List.range' 1 rest.length).map (fun k => (k, rest.length + 1)), ?_, ?_⟩
        · rw [htr, List.length_cons, List.range'_concat, List.map_append]
          have h2 : 1 + 1 * rest.length = rest.length + 1 := by omega
          rw [h2]
          simp
        · intro c hc
          rcases List.mem_map.mp hc with ⟨k, hk, rfl⟩
          rw [List.mem_range'_1] at hk
          simp only [List.length_cons]
          omega

/-- Closed witness for C9: one decodable page with one region gives exactly one
progress call per region after the initial `(0, total)` call; a one-task pack
reports `(1, 1)` and ends at `current = total`. -/
theorem claim_C9_witness :
    (unpackTextures exPagesC9 decodeOk extractNone [exRegionC4]).2
        = (0, 1) :: (List.range' 1 1).map (fun k => (k, 1))
    ∧ (generateOptimizedZip resizeNone [exTaskPlain]).2
        = (List.range' 1 1).map (fun k => (k, 1))
    ∧ (∃ front, (generateOptimizedZip resizeNone [exTaskPlain]).2
          = front ++ [(1, 1)] ∧ ∀ c ∈ front, c.1 < 1) :=
  ⟨(claim_C9.1 exPagesC9 decodeOk extractNone [exRegionC4]).2.2.2 (by decide),
    (claim_C9.2 resizeNone [exTaskPlain]).1,
    (claim_C9.2 resizeNone [exTaskPlain]).2.2 (List.cons_ne_nil _ _)⟩

end SpineAssets
